import Mathlib

/-!
Verification of `mercury200_multipoll.py`: a shallow embedding of the
protocol core (CRC-16/Modbus checksum, BCD decoding, field decoders,
frame exchange with retry, and the per-device poll loop), together with
theorems settling the specification claims.

Bytes are modelled as `List Nat`; a Python `bytes` value always has
elements `< 256`, which appears as a hypothesis where it matters.
Python float division is modelled exactly over `ℚ`.
-/

namespace Mercury200

/-! ### Configuration constants (source lines 27-28) -/

/-- Source: `RETRY = 1` — attempts per command. -/
def RETRY : Nat := 1

/-! ### CRC-16 (Modbus RTU), source lines 31-37 -/

/-- One inner-loop round of `crc16_modbus`:
`crc = (crc >> 1) ^ 0xA001 if crc & 1 else crc >> 1`. -/
def crcRound (crc : Nat) : Nat :=
  if crc &&& 1 = 1 then (crc >>> 1) ^^^ 0xA001 else crc >>> 1

/-- Processing of one input byte: `crc ^= ch` followed by
`for _ in range(8): ...`. -/
def crcByte (crc ch : Nat) : Nat :=
  (List.range 8).foldl (fun c _ => crcRound c) (crc ^^^ ch)

/-- The 16-bit CRC register after consuming `buf`, starting from `0xFFFF`. -/
def crc16 (buf : List Nat) : Nat :=
  buf.foldl crcByte 0xFFFF

/-- Source `crc16_modbus`: the register packed little-endian by
`struct.pack('<H', crc)` — low byte first, then high byte. -/
def crc16_modbus (buf : List Nat) : List Nat :=
  [crc16 buf % 256, crc16 buf / 256]

/-! ### Spec rendering of the checksum algorithm (for the refinement claim)

The spec describes the same algorithm in words: register starts at
`0xFFFF`; each byte is XORed into the low byte of the register; then
8 times: if the low bit is set, shift right one and XOR with `0xA001`,
otherwise shift right one; finally the register is encoded as two
little-endian bytes. -/

/-- Spec's words: "XOR it into the low byte of the register". -/
def crcSpecAbsorb (r ch : Nat) : Nat :=
  ((r % 256) ^^^ ch) + 256 * (r / 256)

/-- Spec's words: "if the low bit is set, shift right one and XOR with
0xA001, otherwise shift right one". -/
def crcSpecRound (r : Nat) : Nat :=
  if r % 2 = 1 then (r / 2) ^^^ 0xA001 else r / 2

/-- The CRC register as described by the spec's words. -/
def crcSpec (buf : List Nat) : List Nat :=
  let v := buf.foldl (fun r ch => crcSpecRound^[8] (crcSpecAbsorb r ch)) 0xFFFF
  [v % 256, v / 256]

/-! ### Supporting lemmas for the CRC refinement -/

/-- XOR with a byte only touches the low byte of the register. -/
lemma xor_byte_split (x c : Nat) (hc : c < 256) :
    x ^^^ c = ((x % 256) ^^^ c) + 256 * (x / 256) := by
  have hlt : (x % 256) ^^^ c < 256 := by
    have h1 : x % 256 < 2 ^ 8 := Nat.mod_lt _ (by norm_num)
    have h2 : c < 2 ^ 8 := by simpa using hc
    simpa using Nat.xor_lt_two_pow h1 h2
  have h256 : (256 : Nat) = 2 ^ 8 := by norm_num
  apply Nat.eq_of_testBit_eq
  intro j
  have hrhs : ((x % 256) ^^^ c) + 256 * (x / 256)
      = 2 ^ 8 * (x / 256) + ((x % 256) ^^^ c) := by ring
  rw [hrhs, Nat.testBit_mul_pow_two_add _ (by simpa [h256] using hlt) j]
  by_cases hj : j < 8
  · rw [if_pos hj]
    rw [Nat.testBit_xor, Nat.testBit_xor]
    congr 1
    rw [h256, Nat.testBit_mod_two_pow]
    simp [hj]
  · rw [if_neg hj]
    have hcj : c.testBit j = false := by
      apply Nat.testBit_lt_two_pow
      calc c < 2 ^ 8 := by simpa [h256] using hc
        _ ≤ 2 ^ j := Nat.pow_le_pow_right (by norm_num) (Nat.le_of_not_lt hj)
    have hdiv : x / 256 = x >>> 8 := by
      rw [Nat.shiftRight_eq_div_pow]
    rw [hdiv, Nat.testBit_shiftRight]
    have hj8 : 8 + (j - 8) = j := by omega
    rw [hj8, Nat.testBit_xor, hcj]
    simp

/-- The source's round and the spec's round agree. -/
lemma crcRound_eq_spec : crcRound = crcSpecRound := by
  funext c
  simp [crcRound, crcSpecRound, Nat.and_one_is_mod, Nat.shiftRight_eq_div_pow]

/-- A fold of a constant function over `List.range n` is an iterate. -/
lemma foldl_range_const (f : Nat → Nat) (n x : Nat) :
    (List.range n).foldl (fun c _ => f c) x = f^[n] x := by
  induction n generalizing x with
  | zero => simp
  | succ k ih =>
      rw [List.range_succ, List.foldl_append, ih, Function.iterate_succ_apply']
      simp

/-- Per-byte processing agrees with the spec rendering for byte inputs. -/
lemma crcByte_eq_spec (crc ch : Nat) (hch : ch < 256) :
    crcByte crc ch = crcSpecRound^[8] (crcSpecAbsorb crc ch) := by
  rw [crcByte, foldl_range_const, crcRound_eq_spec, crcSpecAbsorb,
    ← xor_byte_split crc ch hch]

/-- The spec round keeps the register below `2 ^ 16`. -/
lemma crcSpecRound_lt (r : Nat) (h : r < 65536) : crcSpecRound r < 65536 := by
  unfold crcSpecRound
  have hhalf : r / 2 < 65536 := lt_of_le_of_lt (Nat.div_le_self _ _) h
  split
  · have h1 : r / 2 < 2 ^ 16 := by simpa using hhalf
    have h2 : (0xA001 : Nat) < 2 ^ 16 := by norm_num
    simpa using Nat.xor_lt_two_pow h1 h2
  · exact hhalf

/-- The spec absorb step keeps the register below `2 ^ 16`. -/
lemma crcSpecAbsorb_lt (r ch : Nat) (hr : r < 65536) (hch : ch < 256) :
    crcSpecAbsorb r ch < 65536 := by
  unfold crcSpecAbsorb
  have h1 : r % 256 < 2 ^ 8 := by
    simpa using Nat.mod_lt r (y := 256) (by norm_num)
  have h2 : ch < 2 ^ 8 := by simpa using hch
  have hx : (r % 256) ^^^ ch < 256 := by
    simpa using Nat.xor_lt_two_pow h1 h2
  have hq : r / 256 < 256 := by omega
  omega

/-- The register value stays a 16-bit quantity throughout. -/
lemma crcSpec_register_lt (buf : List Nat) (hb : ∀ b ∈ buf, b < 256) :
    buf.foldl (fun r ch => crcSpecRound^[8] (crcSpecAbsorb r ch)) 0xFFFF < 65536 := by
  suffices h : ∀ init : Nat, init < 65536 →
      buf.foldl (fun r ch => crcSpecRound^[8] (crcSpecAbsorb r ch)) init < 65536 by
    exact h 0xFFFF (by norm_num)
  induction buf with
  | nil => intro init hi; simpa using hi
  | cons b bs ih =>
      intro init hi
      have hb0 : b < 256 := hb b (by simp)
      have hstep : crcSpecRound^[8] (crcSpecAbsorb init b) < 65536 := by
        have habs := crcSpecAbsorb_lt init b hi hb0
        have : ∀ k x, x < 65536 → crcSpecRound^[k] x < 65536 := by
          intro k
          induction k with
          | zero => intro x hx; simpa using hx
          | succ m ihm =>
              intro x hx
              rw [Function.iterate_succ_apply']
              exact crcSpecRound_lt _ (ihm x hx)
        exact this 8 _ habs
      exact ih (fun y hy => hb y (by simp [hy])) _ hstep

/-- The source fold and the spec fold compute the same register. -/
lemma crc16_fold_eq_spec (buf : List Nat) (init : Nat) (hb : ∀ b ∈ buf, b < 256) :
    buf.foldl crcByte init
      = buf.foldl (fun r ch => crcSpecRound^[8] (crcSpecAbsorb r ch)) init := by
  induction buf generalizing init with
  | nil => rfl
  | cons b bs ih =>
      have hb0 : b < 256 := hb b (by simp)
      simp only [List.foldl_cons]
      rw [crcByte_eq_spec init b hb0]
      exact ih _ (fun y hy => hb y (by simp [hy]))

/-- C1: `checksum(b)` is the 2-byte little-endian encoding of the CRC
computed with the spec's algorithm (register `0xFFFF`, XOR each byte into
the low byte, 8 rounds of shift-right / conditional XOR with `0xA001`);
the register is a 16-bit value, so the function is total and
deterministic for inputs of any length, the empty one included. -/
theorem checksum_matches_spec (buf : List Nat) (hb : ∀ b ∈ buf, b < 256) :
    crc16_modbus buf = crcSpec buf ∧ crc16 buf < 65536 := by
  have heq := crc16_fold_eq_spec buf 0xFFFF hb
  constructor
  · rw [crc16_modbus, crcSpec, crc16, heq]
  · rw [crc16, heq]
    exact crcSpec_register_lt buf hb

/-- Witness for C1 at the concrete request body for serial 548973. -/
theorem checksum_matches_spec_witness :
    crc16_modbus [0x00, 0x08, 0x60, 0x6D, 0x63]
        = crcSpec [0x00, 0x08, 0x60, 0x6D, 0x63]
      ∧ crc16 [0x00, 0x08, 0x60, 0x6D, 0x63] < 65536 :=
  checksum_matches_spec [0x00, 0x08, 0x60, 0x6D, 0x63] (by decide)

/-! ### BCD decoding, source lines 40-41

`bcd_to_int` formats every byte as two hexadecimal digit characters
(high nibble, then low nibble), concatenates them, strips leading `'0'`
characters (empty result becomes `'0'`), and parses the string with
`int`.  `int` accepts only decimal digit characters, so a nibble above 9
(formatted as `'A'`-`'F'`) raises an uncaught `ValueError`; the `Option`
models that.  Stripping leading zeros does not change the parsed value,
so the successful branch is the plain decimal value of the digit list. -/

/-- The nibble sequence of a byte string: high nibble, low nibble, in
input order (`byte >> 4` and `byte & 0xF` for bytes `< 256`). -/
def bcdDigits : List Nat → List Nat
  | [] => []
  | x :: xs => x / 16 :: x % 16 :: bcdDigits xs

/-- Decimal value of a digit string as parsed by Python's `int`. -/
def digitsVal (ds : List Nat) : Nat :=
  ds.foldl (fun a d => a * 10 + d) 0

/-- Source `bcd_to_int`; `none` models the uncaught `ValueError` raised
when some nibble formats as a hexadecimal letter. -/
def bcd_to_int (b : List Nat) : Option Nat :=
  if ∀ d ∈ bcdDigits b, d ≤ 9 then some (digitsVal (bcdDigits b)) else none

/-- Spec rendering: the unsigned integer whose decimal digits are the
nibbles of `b` in input order. -/
def specDecimal (b : List Nat) : Nat :=
  Nat.ofDigits 10 (bcdDigits b).reverse

/-- Evaluating the decimal fold from an arbitrary accumulator. -/
lemma foldl_digits_eq (ds : List Nat) : ∀ a : Nat,
    ds.foldl (fun x d => x * 10 + d) a
      = a * 10 ^ ds.length + Nat.ofDigits 10 ds.reverse := by
  induction ds with
  | nil => intro a; simp [Nat.ofDigits]
  | cons d ds ih =>
      intro a
      rw [List.foldl_cons, ih, List.reverse_cons, Nat.ofDigits_append]
      simp [Nat.ofDigits]
      ring

/-- The digit fold computes the standard base-10 value. -/
lemma digitsVal_eq_ofDigits (ds : List Nat) :
    digitsVal ds = Nat.ofDigits 10 ds.reverse := by
  rw [digitsVal, foldl_digits_eq]
  simp

/-- Membership in the nibble list comes from membership in the bytes. -/
lemma mem_bcdDigits {d : Nat} {b : List Nat} (h : d ∈ bcdDigits b) :
    ∃ x ∈ b, d = x / 16 ∨ d = x % 16 := by
  induction b with
  | nil => simp [bcdDigits] at h
  | cons y ys ih =>
      simp only [bcdDigits, List.mem_cons] at h
      rcases h with h | h | h
      · exact ⟨y, by simp, Or.inl h⟩
      · exact ⟨y, by simp, Or.inr h⟩
      · obtain ⟨x, hx, hd⟩ := ih h
        exact ⟨x, by simp [hx], hd⟩

/-- The nibbles of a member byte appear in the nibble list. -/
lemma nibbles_mem_bcdDigits {x : Nat} {p : List Nat} (hxp : x ∈ p) :
    x / 16 ∈ bcdDigits p ∧ x % 16 ∈ bcdDigits p := by
  induction p with
  | nil => simp at hxp
  | cons y ys ihp =>
      simp only [List.mem_cons] at hxp
      rcases hxp with rfl | hm
      · simp [bcdDigits]
      · have := ihp hm
        simp only [bcdDigits, List.mem_cons]
        exact ⟨Or.inr (Or.inr this.1), Or.inr (Or.inr this.2)⟩

/-- Nibble well-formedness is inherited by sublists of the byte string. -/
lemma bcdDigits_wf_of_subset {p q : List Nat}
    (hsub : ∀ x ∈ q, x ∈ p) (hwf : ∀ d ∈ bcdDigits p, d ≤ 9) :
    ∀ d ∈ bcdDigits q, d ≤ 9 := by
  intro d hd
  obtain ⟨x, hx, hcase⟩ := mem_bcdDigits hd
  have hmem := nibbles_mem_bcdDigits (hsub x hx)
  rcases hcase with rfl | rfl
  · exact hwf _ hmem.1
  · exact hwf _ hmem.2

/-- C3: on well-formed BCD input, `bcd_to_int` returns the unsigned
integer whose decimal digits are, in input order, the high then low
nibble of each byte; `0x12 0x34` decodes to `1234`, `0x00 0x00 0x07`
to `7`, and an all-zero-nibble input to `0`. -/
theorem bcd_decodes_decimal_digits (b : List Nat)
    (hwf : ∀ d ∈ bcdDigits b, d ≤ 9) :
    bcd_to_int b = some (specDecimal b)
      ∧ bcd_to_int [0x12, 0x34] = some 1234
      ∧ bcd_to_int [0x00, 0x00, 0x07] = some 7
      ∧ bcd_to_int [0x00, 0x00] = some 0 := by
  refine ⟨?_, by decide, by decide, by decide⟩
  rw [bcd_to_int, if_pos hwf, specDecimal, digitsVal_eq_ofDigits]

/-- Witness for C3 at the bytes `0x12 0x34`. -/
theorem bcd_decodes_decimal_digits_witness :
    bcd_to_int [0x12, 0x34] = some (specDecimal [0x12, 0x34])
      ∧ bcd_to_int [0x12, 0x34] = some 1234
      ∧ bcd_to_int [0x00, 0x00, 0x07] = some 7
      ∧ bcd_to_int [0x00, 0x00] = some 0 :=
  bcd_decodes_decimal_digits [0x12, 0x34] (by decide)

/-! ### Frame construction and validation, source lines 44-46 and 110-124

`send_frame` builds `raw = bytes.fromhex(addr_hex + cmd_hex)` and
`frame = raw + crc16_modbus(raw)`.  The poll loop validates a response
`r` by `crc16_modbus(r[:-2]) == r[-2:]`.  Python's `r[:-2]` is
`take (length - 2)` and `r[-2:]` is `drop (length - 2)` (for lists of
length `< 2` both conventions agree with the Python clamping). -/

/-- The request body: 4 address bytes followed by the command byte. -/
def mkRaw (addr : List Nat) (cmd : Nat) : List Nat :=
  addr ++ [cmd]

/-- The full request frame: body plus its checksum. -/
def mkFrame (addr : List Nat) (cmd : Nat) : List Nat :=
  mkRaw addr cmd ++ crc16_modbus (mkRaw addr cmd)

/-- `f'{int(serial):08X}'` then `bytes.fromhex`: the 4-byte big-endian
encoding of the serial number. -/
def addrBytes (serial : Nat) : List Nat :=
  [serial / 16777216 % 256, serial / 65536 % 256, serial / 256 % 256, serial % 256]

/-- C2: every frame of the form `b ++ checksum b` validates under the
response-validation rule (checksum over all but the trailing two bytes
equals those two bytes), and in particular the request frame built for
serial 548973 with command `0x63` validates its own trailing checksum. -/
theorem frame_self_validates :
    (∀ b : List Nat,
        crc16_modbus ((b ++ crc16_modbus b).take ((b ++ crc16_modbus b).length - 2))
          = (b ++ crc16_modbus b).drop ((b ++ crc16_modbus b).length - 2))
      ∧ crc16_modbus ((mkFrame (addrBytes 548973) 0x63).take
            ((mkFrame (addrBytes 548973) 0x63).length - 2))
          = (mkFrame (addrBytes 548973) 0x63).drop
            ((mkFrame (addrBytes 548973) 0x63).length - 2) := by
  have key : ∀ b : List Nat,
      crc16_modbus ((b ++ crc16_modbus b).take ((b ++ crc16_modbus b).length - 2))
        = (b ++ crc16_modbus b).drop ((b ++ crc16_modbus b).length - 2) := by
    intro b
    have hlen2 : (crc16_modbus b).length = 2 := rfl
    have hl : (b ++ crc16_modbus b).length - 2 = b.length := by
      simp [List.length_append, hlen2]
    rw [hl, List.take_left, List.drop_left]
  exact ⟨key, key (mkRaw (addrBytes 548973) 0x63)⟩

/-! ### Field decoders, source lines 67-70

`parse_63(p) = (bcd(p[0:2])/10, bcd(p[2:4])/100, bcd(p[4:7]))` and
`parse_27(p) = (bcd(p[0:4])/100, bcd(p[4:8])/100)`; float division is
modelled exactly over `ℚ`, and a decode `ValueError` propagates as
`none`. -/

/-- Source `parse_63`: voltage, current, power from a payload. -/
def parse_63 (p : List Nat) : Option (ℚ × ℚ × ℚ) :=
  match bcd_to_int (p.take 2), bcd_to_int ((p.drop 2).take 2),
      bcd_to_int ((p.drop 4).take 3) with
  | some u, some i, some w => some ((u : ℚ) / 10, (i : ℚ) / 100, (w : ℚ))
  | _, _, _ => none

/-- Source `parse_27`: the two tariff registers from a payload. -/
def parse_27 (p : List Nat) : Option (ℚ × ℚ) :=
  match bcd_to_int (p.take 4), bcd_to_int ((p.drop 4).take 4) with
  | some a, some b => some ((a : ℚ) / 100, (b : ℚ) / 100)
  | _, _ => none

/-- Helper: `bcd_to_int` on well-formed input, as a rewrite rule. -/
lemma bcd_to_int_eq_specDecimal (b : List Nat)
    (hwf : ∀ d ∈ bcdDigits b, d ≤ 9) :
    bcd_to_int b = some (specDecimal b) := by
  rw [bcd_to_int, if_pos hwf, specDecimal, digitsVal_eq_ofDigits]

/-- Helper: well-formedness restricted to a `take`-slice. -/
lemma wf_take {p : List Nat} (hwf : ∀ d ∈ bcdDigits p, d ≤ 9) (n : Nat) :
    ∀ d ∈ bcdDigits (p.take n), d ≤ 9 :=
  bcdDigits_wf_of_subset (fun _ hx => List.take_subset n p hx) hwf

/-- Helper: well-formedness restricted to a `drop`-then-`take` slice. -/
lemma wf_drop_take {p : List Nat} (hwf : ∀ d ∈ bcdDigits p, d ≤ 9) (m n : Nat) :
    ∀ d ∈ bcdDigits ((p.drop m).take n), d ≤ 9 :=
  bcdDigits_wf_of_subset
    (fun _ hx => List.drop_subset m p (List.take_subset n (p.drop m) hx)) hwf

/-- Helper: `parse_63` on a well-formed payload. -/
lemma parse_63_eq (p : List Nat) (hwf : ∀ d ∈ bcdDigits p, d ≤ 9) :
    parse_63 p = some ((specDecimal (p.take 2) : ℚ) / 10,
      (specDecimal ((p.drop 2).take 2) : ℚ) / 100,
      (specDecimal ((p.drop 4).take 3) : ℚ)) := by
  rw [parse_63, bcd_to_int_eq_specDecimal _ (wf_take hwf 2),
    bcd_to_int_eq_specDecimal _ (wf_drop_take hwf 2 2),
    bcd_to_int_eq_specDecimal _ (wf_drop_take hwf 4 3)]

/-- Helper: `parse_27` on a well-formed payload. -/
lemma parse_27_eq (p : List Nat) (hwf : ∀ d ∈ bcdDigits p, d ≤ 9) :
    parse_27 p = some ((specDecimal (p.take 4) : ℚ) / 100,
      (specDecimal ((p.drop 4).take 4) : ℚ) / 100) := by
  rw [parse_27, bcd_to_int_eq_specDecimal _ (wf_take hwf 4),
    bcd_to_int_eq_specDecimal _ (wf_drop_take hwf 4 4)]

/-- C4: on a well-formed payload of sufficient length the primary
decoder yields (BCD of bytes 0-1 over 10, BCD of bytes 2-3 over 100,
BCD of bytes 4-6 unscaled) and the secondary decoder yields (BCD of
bytes 0-3 over 100, BCD of bytes 4-7 over 100); the payloads of the
spec's two scenarios decode to 23.0 / 1.00 / 500 and 123.45 / 678.90. -/
theorem field_decoders_scale (p q : List Nat)
    (hp : 7 ≤ p.length) (hpwf : ∀ d ∈ bcdDigits p, d ≤ 9)
    (hq : 8 ≤ q.length) (hqwf : ∀ d ∈ bcdDigits q, d ≤ 9) :
    parse_63 p = some ((specDecimal (p.take 2) : ℚ) / 10,
        (specDecimal ((p.drop 2).take 2) : ℚ) / 100,
        (specDecimal ((p.drop 4).take 3) : ℚ))
      ∧ parse_27 q = some ((specDecimal (q.take 4) : ℚ) / 100,
          (specDecimal ((q.drop 4).take 4) : ℚ) / 100)
      ∧ parse_63 [0x02, 0x30, 0x01, 0x00, 0x00, 0x05, 0x00]
          = some ((23 : ℚ), (1 : ℚ), (500 : ℚ))
      ∧ parse_27 [0x00, 0x01, 0x23, 0x45, 0x00, 0x06, 0x78, 0x90]
          = some ((123.45 : ℚ), (678.90 : ℚ)) := by
  refine ⟨parse_63_eq p hpwf, parse_27_eq q hqwf, ?_, ?_⟩
  · rw [parse_63_eq _ (by decide)]
    norm_num [specDecimal, bcdDigits, Nat.ofDigits]
  · rw [parse_27_eq _ (by decide)]
    norm_num [specDecimal, bcdDigits, Nat.ofDigits]

/-- Witness for C4 at the spec's two example payloads. -/
theorem field_decoders_scale_witness :
    parse_63 [0x02, 0x30, 0x01, 0x00, 0x00, 0x05, 0x00]
        = some ((specDecimal ([0x02, 0x30, 0x01, 0x00, 0x00, 0x05, 0x00].take 2) : ℚ) / 10,
          (specDecimal (([0x02, 0x30, 0x01, 0x00, 0x00, 0x05, 0x00].drop 2).take 2) : ℚ) / 100,
          (specDecimal (([0x02, 0x30, 0x01, 0x00, 0x00, 0x05, 0x00].drop 4).take 3) : ℚ))
      ∧ parse_27 [0x00, 0x01, 0x23, 0x45, 0x00, 0x06, 0x78, 0x90]
          = some ((specDecimal ([0x00, 0x01, 0x23, 0x45, 0x00, 0x06, 0x78, 0x90].take 4) : ℚ) / 100,
            (specDecimal (([0x00, 0x01, 0x23, 0x45, 0x00, 0x06, 0x78, 0x90].drop 4).take 4) : ℚ) / 100)
      ∧ parse_63 [0x02, 0x30, 0x01, 0x00, 0x00, 0x05, 0x00]
          = some ((23 : ℚ), (1 : ℚ), (500 : ℚ))
      ∧ parse_27 [0x00, 0x01, 0x23, 0x45, 0x00, 0x06, 0x78, 0x90]
          = some ((123.45 : ℚ), (678.90 : ℚ)) :=
  field_decoders_scale _ _ (by decide) (by decide) (by decide) (by decide)

/-! ### Frame exchange, source lines 44-64

The receive loop accumulates `sock.recv(256)` chunks until 6 bytes are
seen; `socket.timeout` or an empty chunk ends the attempt, and the
deadline expiring ends the attempt (modelled by the event list running
out).  The retry loop `for _ in range(RETRY)` re-runs the attempt, but
an `OSError` on `sendall` returns `None` from inside the loop.  The
transport is modelled as a schedule: one `Attempt` per loop iteration,
each successful send carrying the sequence of receive results. -/

/-- One result of `sock.recv(256)`: a chunk of bytes (empty meaning the
connection closed) or a `socket.timeout`. -/
inductive RecvEvent where
  | chunk (data : List Nat)
  | timeout

/-- Behaviour of one retry-loop iteration: `sendall` raising `OSError`,
or a successful send followed by the given receive results. -/
inductive Attempt where
  | sendErr
  | sendOk (events : List RecvEvent)

/-- The accumulation loop of `send_frame` (source lines 53-63): append
chunks to `acc`; return the accumulated bytes as soon as 6 are present;
fail the attempt on timeout, closed connection, or an expired deadline
(exhausted event list). -/
def recvLoop : List RecvEvent → List Nat → Option (List Nat)
  | [], _ => none
  | RecvEvent.timeout :: _, _ => none
  | RecvEvent.chunk c :: rest, acc =>
    if c = [] then none
    else if 6 ≤ (acc ++ c).length then some (acc ++ c)
    else recvLoop rest (acc ++ c)

/-- The retry loop of `send_frame` (source lines 47-64): `i` is the
attempt index, `n` the remaining iterations of `range(RETRY)`.  A send
error returns `None` for the whole exchange; a failed receive moves to
the next iteration; the loop falling through returns `None`. -/
def send_frame_go (env : Nat → Attempt) : Nat → Nat → Option (List Nat)
  | _, 0 => none
  | i, n + 1 =>
    match env i with
    | Attempt.sendErr => none
    | Attempt.sendOk evs =>
      match recvLoop evs [] with
      | some r => some r
      | none => send_frame_go env (i + 1) n

/-- Source `send_frame`, as a function of the transport schedule. -/
def send_frame (env : Nat → Attempt) : Option (List Nat) :=
  send_frame_go env 0 RETRY

/-- An attempt fails: the send raised `OSError`, or the receive loop
ended without accumulating 6 bytes (timeout, closed, or deadline). -/
def attemptFails : Attempt → Prop
  | Attempt.sendErr => True
  | Attempt.sendOk evs => recvLoop evs [] = none

/-- C6: a chunk that brings the accumulated length to 6 makes the
exchange return exactly the accumulated bytes at once, whatever events
are still in flight; and when every attempt's receive loop fails to
accumulate 6 bytes (timeout / closed / deadline), the exchange returns
the absence value `none` — a value, not an exception — only after the
configured attempts are exhausted. -/
theorem exchange_returns_at_six (acc c : List Nat) (rest : List RecvEvent)
    (env : Nat → Attempt)
    (hc : c ≠ []) (hlen : 6 ≤ (acc ++ c).length)
    (hfail : ∀ i, i < RETRY →
      ∃ evs, env i = Attempt.sendOk evs ∧ recvLoop evs [] = none) :
    recvLoop (RecvEvent.chunk c :: rest) acc = some (acc ++ c)
      ∧ send_frame env = none := by
  constructor
  · rw [recvLoop, if_neg hc, if_pos hlen]
  · obtain ⟨evs, henv, hrecv⟩ := hfail 0 (by norm_num [RETRY])
    simp [send_frame, RETRY, send_frame_go, henv, hrecv]

/-- Witness for C6: a 6-byte chunk returns immediately, and a transport
whose single attempt times out yields `none`. -/
theorem exchange_returns_at_six_witness :
    recvLoop (RecvEvent.chunk [1, 2, 3, 4, 5, 6] :: [RecvEvent.chunk [7]]) []
        = some ([] ++ [1, 2, 3, 4, 5, 6])
      ∧ send_frame (fun _ => Attempt.sendOk [RecvEvent.timeout]) = none :=
  exchange_returns_at_six [] [1, 2, 3, 4, 5, 6] [RecvEvent.chunk [7]]
    (fun _ => Attempt.sendOk [RecvEvent.timeout])
    (by decide) (by decide)
    (fun i _ => ⟨[RecvEvent.timeout], rfl, rfl⟩)

/-- C7: under the configured attempt limit (`RETRY = 1`), the exchange
escalates to the absence value exactly when every attempt within the
limit failed, where a failure is any of the three per-attempt kinds:
a send error, a receive timeout, or a closed connection (both of which
fail the receive loop). -/
theorem retry_exhaustion_absence (env : Nat → Attempt) :
    (send_frame env = none ↔ ∀ i, i < RETRY → attemptFails (env i))
      ∧ attemptFails Attempt.sendErr
      ∧ (∀ (rest : List RecvEvent) (acc : List Nat),
          recvLoop (RecvEvent.timeout :: rest) acc = none)
      ∧ (∀ (rest : List RecvEvent) (acc : List Nat),
          recvLoop (RecvEvent.chunk [] :: rest) acc = none) := by
  refine ⟨?_, trivial, fun rest acc => rfl, fun rest acc => by rw [recvLoop, if_pos rfl]⟩
  constructor
  · intro hnone i hi
    have hi0 : i = 0 := by
      have : RETRY = 1 := rfl
      omega
    subst hi0
    cases henv : env 0 with
    | sendErr => exact trivial
    | sendOk evs =>
        show recvLoop evs [] = none
        cases hrecv : recvLoop evs [] with
        | none => rfl
        | some r =>
            simp [send_frame, RETRY, send_frame_go, henv, hrecv] at hnone
  · intro hall
    have h0 := hall 0 (by norm_num [RETRY])
    cases henv : env 0 with
    | sendErr => simp [send_frame, RETRY, send_frame_go, henv]
    | sendOk evs =>
        rw [henv] at h0
        have h0' : recvLoop evs [] = none := h0
        simp [send_frame, RETRY, send_frame_go, henv, h0']

/-- Witness for C7: an exchange whose single attempt is a send error
escalates to `none`. -/
theorem retry_exhaustion_absence_witness :
    send_frame (fun _ => Attempt.sendErr) = none :=
  (retry_exhaustion_absence (fun _ => Attempt.sendErr)).1.mpr
    (fun i _ => trivial)

/-! ### Poll driver, source lines 110-124

Per device: issue the `63h` exchange; if the result is falsy (`None` or
empty) or its trailing checksum does not validate, print the
no-response row and continue.  Otherwise decode `r63[5:-2]`, issue the
`27h` exchange; if that fails the same test, print a partial row with
`'-'` placeholders for both tariffs; otherwise decode and print the
full row.  An invalid BCD nibble raises an uncaught `ValueError`
(modelled by `none`), which aborts the whole poll pass. -/

/-- The reported row for one device: no response / integrity failure,
a partial reading (both tariffs shown as the `'-'` placeholder), or a
complete reading. -/
inductive Outcome where
  | noResponse
  | partialRow (U I P : ℚ)
  | complete (U I P T1 T2 : ℚ)
deriving DecidableEq

/-- The poll loop's failure test `not r or crc16_modbus(r[:-2]) != r[-2:]`,
as a proposition on an exchange result. -/
def exchangeFailed : Option (List Nat) → Prop
  | none => True
  | some r => r = [] ∨ crc16_modbus (r.take (r.length - 2)) ≠ r.drop (r.length - 2)

/-- One device's poll (source lines 112-124) as a function of the two
exchange results; `none` models an uncaught `ValueError` from decoding. -/
def pollDevice (r63 r27 : Option (List Nat)) : Option Outcome :=
  match r63 with
  | none => some Outcome.noResponse
  | some r =>
    if r = [] ∨ crc16_modbus (r.take (r.length - 2)) ≠ r.drop (r.length - 2) then
      some Outcome.noResponse
    else
      match parse_63 ((r.take (r.length - 2)).drop 5) with
      | none => none
      | some (U, I, P) =>
        match r27 with
        | none => some (Outcome.partialRow U I P)
        | some r2 =>
          if r2 = [] ∨ crc16_modbus (r2.take (r2.length - 2)) ≠ r2.drop (r2.length - 2) then
            some (Outcome.partialRow U I P)
          else
            match parse_27 ((r2.take (r2.length - 2)).drop 5) with
            | none => none
            | some (T1, T2) => some (Outcome.complete U I P T1 T2)

/-- The loop over one port's serial list: devices are polled in order
and each contributes one row; an uncaught exception (`none`) aborts the
remainder of the pass. -/
def pollPass : List (Option (List Nat) × Option (List Nat)) → Option (List Outcome)
  | [] => some []
  | (a, b) :: rest =>
    match pollDevice a b with
    | none => none
    | some o => (pollPass rest).map (fun l => o :: l)

/-! ### Poll-driver helper lemmas -/

/-- A failing primary check reports the no-response row whatever the
secondary exchange would have produced. -/
lemma pollDevice_bad_primary (r : List Nat) (r27 : Option (List Nat))
    (h : r = [] ∨ crc16_modbus (r.take (r.length - 2)) ≠ r.drop (r.length - 2)) :
    pollDevice (some r) r27 = some Outcome.noResponse := by
  rcases h with h | h
  · simp [pollDevice, h]
  · simp [pollDevice, h]

/-- A valid primary with a failing secondary reports the partial row. -/
lemma pollDevice_good_primary (r : List Nat) (r27 : Option (List Nat)) (U I P : ℚ)
    (hne : ¬(r = [] ∨ crc16_modbus (r.take (r.length - 2)) ≠ r.drop (r.length - 2)))
    (hp : parse_63 ((r.take (r.length - 2)).drop 5) = some (U, I, P))
    (hfail : exchangeFailed r27) :
    pollDevice (some r) r27 = some (Outcome.partialRow U I P) := by
  cases r27 with
  | none => simp [pollDevice, hne, hp]
  | some r2 =>
      have h2 : r2 = [] ∨ crc16_modbus (r2.take (r2.length - 2)) ≠ r2.drop (r2.length - 2) :=
        hfail
      rcases h2 with h2 | h2
      · simp [pollDevice, hne, hp, h2]
      · simp [pollDevice, hne, hp, h2]

/-- Valid primary and secondary report the complete row. -/
lemma pollDevice_good_both (r r2 : List Nat) (U I P T1 T2 : ℚ)
    (hne : ¬(r = [] ∨ crc16_modbus (r.take (r.length - 2)) ≠ r.drop (r.length - 2)))
    (hp : parse_63 ((r.take (r.length - 2)).drop 5) = some (U, I, P))
    (hne2 : ¬(r2 = [] ∨ crc16_modbus (r2.take (r2.length - 2)) ≠ r2.drop (r2.length - 2)))
    (hq : parse_27 ((r2.take (r2.length - 2)).drop 5) = some (T1, T2)) :
    pollDevice (some r) (some r2) = some (Outcome.complete U I P T1 T2) := by
  simp [pollDevice, hne, hp, hne2, hq]

/-- C5: if the primary exchange is absent or fails validation, the
device reports the no-response row and the secondary result is never
consulted; if the primary is valid and decodes while the secondary is
absent or fails validation, the device reports a partial row (both
tariffs absent by construction of `Outcome.partialRow`) — in both cases
as a value, with polling continuing over the remaining devices. -/
theorem poll_driver_terminal_outcomes :
    (∀ (r27 : Option (List Nat)) (rest : List (Option (List Nat) × Option (List Nat))),
        pollPass ((none, r27) :: rest)
          = (pollPass rest).map (fun l => Outcome.noResponse :: l))
      ∧ (∀ (r : List Nat) (r27 : Option (List Nat))
            (rest : List (Option (List Nat) × Option (List Nat))),
          (r = [] ∨ crc16_modbus (r.take (r.length - 2)) ≠ r.drop (r.length - 2)) →
          pollPass ((some r, r27) :: rest)
            = (pollPass rest).map (fun l => Outcome.noResponse :: l))
      ∧ (∀ (r : List Nat) (r27 : Option (List Nat)) (U I P : ℚ)
            (rest : List (Option (List Nat) × Option (List Nat))),
          ¬(r = [] ∨ crc16_modbus (r.take (r.length - 2)) ≠ r.drop (r.length - 2)) →
          parse_63 ((r.take (r.length - 2)).drop 5) = some (U, I, P) →
          exchangeFailed r27 →
          pollPass ((some r, r27) :: rest)
            = (pollPass rest).map (fun l => Outcome.partialRow U I P :: l)) := by
  refine ⟨?_, ?_, ?_⟩
  · intro r27 rest
    simp [pollPass, pollDevice]
  · intro r r27 rest h
    simp [pollPass, pollDevice_bad_primary r r27 h]
  · intro r r27 U I P rest hne hp hfail
    simp [pollPass, pollDevice_good_primary r r27 U I P hne hp hfail]

set_option maxRecDepth 4000 in
/-- Witness for C5: a device whose primary frame fails validation
reports no-response; a device with a valid primary frame (the spec's
example payload) and an absent secondary reports a partial row. -/
theorem poll_driver_terminal_outcomes_witness :
    pollPass [(some [1, 2, 3, 4, 5, 6], none)]
        = (pollPass []).map (fun l => Outcome.noResponse :: l)
      ∧ pollPass [(some ([0x00, 0x08, 0x60, 0x6D, 0x63, 0x02, 0x30, 0x01, 0x00, 0x00, 0x05, 0x00]
              ++ crc16_modbus [0x00, 0x08, 0x60, 0x6D, 0x63, 0x02, 0x30, 0x01, 0x00, 0x00, 0x05, 0x00]), none)]
          = (pollPass []).map (fun l => Outcome.partialRow
              ((specDecimal (((([0x00, 0x08, 0x60, 0x6D, 0x63, 0x02, 0x30, 0x01, 0x00, 0x00, 0x05, 0x00]
                  ++ crc16_modbus [0x00, 0x08, 0x60, 0x6D, 0x63, 0x02, 0x30, 0x01, 0x00, 0x00, 0x05, 0x00]).take
                    (([0x00, 0x08, 0x60, 0x6D, 0x63, 0x02, 0x30, 0x01, 0x00, 0x00, 0x05, 0x00]
                  ++ crc16_modbus [0x00, 0x08, 0x60, 0x6D, 0x63, 0x02, 0x30, 0x01, 0x00, 0x00, 0x05, 0x00]).length - 2)).drop 5).take 2) : ℚ) / 10)
              ((specDecimal ((((([0x00, 0x08, 0x60, 0x6D, 0x63, 0x02, 0x30, 0x01, 0x00, 0x00, 0x05, 0x00]
                  ++ crc16_modbus [0x00, 0x08, 0x60, 0x6D, 0x63, 0x02, 0x30, 0x01, 0x00, 0x00, 0x05, 0x00]).take
                    (([0x00, 0x08, 0x60, 0x6D, 0x63, 0x02, 0x30, 0x01, 0x00, 0x00, 0x05, 0x00]
                  ++ crc16_modbus [0x00, 0x08, 0x60, 0x6D, 0x63, 0x02, 0x30, 0x01, 0x00, 0x00, 0x05, 0x00]).length - 2)).drop 5).drop 2).take 2) : ℚ) / 100)
              ((specDecimal ((((([0x00, 0x08, 0x60, 0x6D, 0x63, 0x02, 0x30, 0x01, 0x00, 0x00, 0x05, 0x00]
                  ++ crc16_modbus [0x00, 0x08, 0x60, 0x6D, 0x63, 0x02, 0x30, 0x01, 0x00, 0x00, 0x05, 0x00]).take
                    (([0x00, 0x08, 0x60, 0x6D, 0x63, 0x02, 0x30, 0x01, 0x00, 0x00, 0x05, 0x00]
                  ++ crc16_modbus [0x00, 0x08, 0x60, 0x6D, 0x63, 0x02, 0x30, 0x01, 0x00, 0x00, 0x05, 0x00]).length - 2)).drop 5).drop 4).take 3) : ℚ)) :: l) :=
  ⟨poll_driver_terminal_outcomes.2.1 [1, 2, 3, 4, 5, 6] none [] (by decide),
    poll_driver_terminal_outcomes.2.2
      ([0x00, 0x08, 0x60, 0x6D, 0x63, 0x02, 0x30, 0x01, 0x00, 0x00, 0x05, 0x00]
        ++ crc16_modbus [0x00, 0x08, 0x60, 0x6D, 0x63, 0x02, 0x30, 0x01, 0x00, 0x00, 0x05, 0x00])
      none _ _ _ [] (by decide) (parse_63_eq _ (by decide)) trivial⟩

/-! ### Totality and abort behaviour of the poll pass -/

/-- A response whose payload slice `r[5:-2]` carries only decimal
nibbles whenever the response is non-empty and checksum-valid (passes
the poll loop's validation test, the only case in which the code
decodes it).  Absent, empty, and checksum-invalid responses satisfy
this vacuously: their payloads are never decoded. -/
def wfResp (o : Option (List Nat)) : Prop :=
  ∀ r, o = some r →
    ¬(r = [] ∨ crc16_modbus (r.take (r.length - 2)) ≠ r.drop (r.length - 2)) →
    ∀ d ∈ bcdDigits ((r.take (r.length - 2)).drop 5), d ≤ 9

/-- A device whose checksum-valid responses are well-formed always
yields a row. -/
lemma pollDevice_total (a b : Option (List Nat))
    (ha : wfResp a) (hb : wfResp b) :
    ∃ o, pollDevice a b = some o := by
  cases a with
  | none => exact ⟨Outcome.noResponse, rfl⟩
  | some r =>
      by_cases hc : r = [] ∨ crc16_modbus (r.take (r.length - 2)) ≠ r.drop (r.length - 2)
      · exact ⟨Outcome.noResponse, pollDevice_bad_primary r b hc⟩
      · have hp := parse_63_eq _ (ha r rfl hc)
        cases b with
        | none => exact ⟨_, pollDevice_good_primary r none _ _ _ hc hp trivial⟩
        | some r2 =>
            by_cases hc2 : r2 = [] ∨ crc16_modbus (r2.take (r2.length - 2)) ≠ r2.drop (r2.length - 2)
            · exact ⟨_, pollDevice_good_primary r (some r2) _ _ _ hc hp hc2⟩
            · have hq := parse_27_eq _ (hb r2 rfl hc2)
              exact ⟨_, pollDevice_good_both r r2 _ _ _ _ _ hc hp hc2 hq⟩

/-- C9 (amended): provided every checksum-valid response carries only
decimal nibbles in its payload, the poll pass never aborts — every
device contributes exactly one reported row, the worst being a failure
row.  Checksum-invalid or empty responses need no proviso: their
payloads are never decoded, so they may contain any bytes.  (The
original claim, which also covers checksum-valid payloads with a
nibble above 9, is refuted by `Mercury200.invalid_nibble_aborts_poll`.) -/
theorem poll_pass_never_aborts (xs : List (Option (List Nat) × Option (List Nat)))
    (hwf : ∀ pr ∈ xs, wfResp pr.1 ∧ wfResp pr.2) :
    ∃ l, pollPass xs = some l ∧ l.length = xs.length := by
  induction xs with
  | nil => exact ⟨[], rfl, rfl⟩
  | cons pr rest ih =>
      obtain ⟨a, b⟩ := pr
      have hpr := hwf (a, b) (by simp)
      obtain ⟨o, ho⟩ := pollDevice_total a b hpr.1 hpr.2
      obtain ⟨l, hl, hlen⟩ := ih (fun q hq => hwf q (by simp [hq]))
      refine ⟨o :: l, ?_, by simp [hlen]⟩
      simp [pollPass, ho, hl]

/-- Witness for C9: a three-device pass — an absent primary, a valid
frame with the spec's example payload, and a checksum-invalid noise
frame containing hexadecimal nibbles (covered vacuously by the
proviso, since its payload is never decoded) — yields three rows. -/
theorem poll_pass_never_aborts_witness :
    ∃ l, pollPass [(none, none),
        (some ([0x00, 0x08, 0x60, 0x6D, 0x63, 0x02, 0x30, 0x01, 0x00, 0x00, 0x05, 0x00]
          ++ crc16_modbus [0x00, 0x08, 0x60, 0x6D, 0x63, 0x02, 0x30, 0x01, 0x00, 0x00, 0x05, 0x00]), none),
        (some [0x1A, 0xAA, 0xBB, 0x04, 0x05, 0x06], none)]
          = some l
      ∧ l.length = 3 :=
  poll_pass_never_aborts _ (by
    intro pr hpr
    simp only [List.mem_cons, List.mem_singleton] at hpr
    rcases hpr with rfl | rfl | rfl | h
    · exact ⟨fun r hr => by simp at hr, fun r hr => by simp at hr⟩
    · refine ⟨fun r hr hv => ?_, fun r hr => by simp at hr⟩
      obtain rfl : _ = r := Option.some.inj hr
      decide
    · refine ⟨fun r hr hv => ?_, fun r hr => by simp at hr⟩
      obtain rfl : _ = r := Option.some.inj hr
      exact absurd (Or.inr (by decide)) hv
    · simp at h)

set_option maxRecDepth 4000 in
/-- Counterexample for C9: a checksum-valid primary response whose
payload starts with byte `0x1A` (low nibble of the high digit pair is
the hexadecimal digit `A`) makes `bcd_to_int` raise `ValueError`
(modelled by `none`); the poll pass aborts, and the following device is
never reported — the worst outcome is not a failure row. -/
theorem invalid_nibble_aborts_poll :
    crc16_modbus (([0x00, 0x08, 0x60, 0x6D, 0x63, 0x1A, 0x00, 0x00, 0x00, 0x00, 0x00, 0x00]
            ++ crc16_modbus [0x00, 0x08, 0x60, 0x6D, 0x63, 0x1A, 0x00, 0x00, 0x00, 0x00, 0x00, 0x00]).take
          (([0x00, 0x08, 0x60, 0x6D, 0x63, 0x1A, 0x00, 0x00, 0x00, 0x00, 0x00, 0x00]
            ++ crc16_modbus [0x00, 0x08, 0x60, 0x6D, 0x63, 0x1A, 0x00, 0x00, 0x00, 0x00, 0x00, 0x00]).length - 2))
        = ([0x00, 0x08, 0x60, 0x6D, 0x63, 0x1A, 0x00, 0x00, 0x00, 0x00, 0x00, 0x00]
            ++ crc16_modbus [0x00, 0x08, 0x60, 0x6D, 0x63, 0x1A, 0x00, 0x00, 0x00, 0x00, 0x00, 0x00]).drop
          (([0x00, 0x08, 0x60, 0x6D, 0x63, 0x1A, 0x00, 0x00, 0x00, 0x00, 0x00, 0x00]
            ++ crc16_modbus [0x00, 0x08, 0x60, 0x6D, 0x63, 0x1A, 0x00, 0x00, 0x00, 0x00, 0x00, 0x00]).length - 2)
      ∧ pollDevice (some ([0x00, 0x08, 0x60, 0x6D, 0x63, 0x1A, 0x00, 0x00, 0x00, 0x00, 0x00, 0x00]
            ++ crc16_modbus [0x00, 0x08, 0x60, 0x6D, 0x63, 0x1A, 0x00, 0x00, 0x00, 0x00, 0x00, 0x00])) none
          = none
      ∧ pollPass [(some ([0x00, 0x08, 0x60, 0x6D, 0x63, 0x1A, 0x00, 0x00, 0x00, 0x00, 0x00, 0x00]
            ++ crc16_modbus [0x00, 0x08, 0x60, 0x6D, 0x63, 0x1A, 0x00, 0x00, 0x00, 0x00, 0x00, 0x00]), none),
          (none, none)] = none := by
  refine ⟨by decide, by decide, by decide⟩

/-- C8 (amended): a response that is received and checksum-valid but
whose payload is shorter than the decoder requires is NOT reported as a
distinct malformed-payload failure: the slices truncate silently,
fields whose bytes are missing decode from the remaining (possibly
empty) bytes, and the device is reported as an ordinary reading row.
(The original claim is refuted by `Mercury200.short_payload_zero_row`.) -/
theorem short_payload_reported_as_reading (r : List Nat) (r27 : Option (List Nat))
    (hne : ¬(r = [] ∨ crc16_modbus (r.take (r.length - 2)) ≠ r.drop (r.length - 2)))
    (hwf : ∀ d ∈ bcdDigits ((r.take (r.length - 2)).drop 5), d ≤ 9)
    (hshort : ((r.take (r.length - 2)).drop 5).length < 7)
    (hfail : exchangeFailed r27) :
    pollDevice (some r) r27
      = some (Outcome.partialRow
          ((specDecimal (((r.take (r.length - 2)).drop 5).take 2) : ℚ) / 10)
          ((specDecimal ((((r.take (r.length - 2)).drop 5).drop 2).take 2) : ℚ) / 100)
          ((specDecimal ((((r.take (r.length - 2)).drop 5).drop 4).take 3) : ℚ))) :=
  pollDevice_good_primary r r27 _ _ _ hne (parse_63_eq _ hwf) hfail

set_option maxRecDepth 4000 in
/-- Witness for C8 (amended) at a 7-byte checksum-valid frame whose
payload is empty. -/
theorem short_payload_reported_as_reading_witness :
    pollDevice (some ([0x00, 0x08, 0x60, 0x6D, 0x63]
          ++ crc16_modbus [0x00, 0x08, 0x60, 0x6D, 0x63])) none
      = some (Outcome.partialRow
          ((specDecimal (((([0x00, 0x08, 0x60, 0x6D, 0x63]
              ++ crc16_modbus [0x00, 0x08, 0x60, 0x6D, 0x63]).take
                (([0x00, 0x08, 0x60, 0x6D, 0x63]
              ++ crc16_modbus [0x00, 0x08, 0x60, 0x6D, 0x63]).length - 2)).drop 5).take 2) : ℚ) / 10)
          ((specDecimal ((((([0x00, 0x08, 0x60, 0x6D, 0x63]
              ++ crc16_modbus [0x00, 0x08, 0x60, 0x6D, 0x63]).take
                (([0x00, 0x08, 0x60, 0x6D, 0x63]
              ++ crc16_modbus [0x00, 0x08, 0x60, 0x6D, 0x63]).length - 2)).drop 5).drop 2).take 2) : ℚ) / 100)
          ((specDecimal ((((([0x00, 0x08, 0x60, 0x6D, 0x63]
              ++ crc16_modbus [0x00, 0x08, 0x60, 0x6D, 0x63]).take
                (([0x00, 0x08, 0x60, 0x6D, 0x63]
              ++ crc16_modbus [0x00, 0x08, 0x60, 0x6D, 0x63]).length - 2)).drop 5).drop 4).take 3) : ℚ))) :=
  short_payload_reported_as_reading
    ([0x00, 0x08, 0x60, 0x6D, 0x63] ++ crc16_modbus [0x00, 0x08, 0x60, 0x6D, 0x63])
    none (by decide) (by decide) (by decide) trivial

set_option maxRecDepth 4000 in
/-- Counterexample for C8: a 7-byte checksum-valid response has an
empty payload (shorter than the 7 bytes the primary decoder needs),
yet the device is reported as an ordinary partial reading whose fields
are all silently coerced to zero — not as a malformed-payload failure
distinct from "no response" (the outcome type of the code has no such
distinct report at all). -/
theorem short_payload_zero_row :
    crc16_modbus (([0x00, 0x08, 0x60, 0x6D, 0x63]
            ++ crc16_modbus [0x00, 0x08, 0x60, 0x6D, 0x63]).take
          (([0x00, 0x08, 0x60, 0x6D, 0x63]
            ++ crc16_modbus [0x00, 0x08, 0x60, 0x6D, 0x63]).length - 2))
        = ([0x00, 0x08, 0x60, 0x6D, 0x63]
            ++ crc16_modbus [0x00, 0x08, 0x60, 0x6D, 0x63]).drop
          (([0x00, 0x08, 0x60, 0x6D, 0x63]
            ++ crc16_modbus [0x00, 0x08, 0x60, 0x6D, 0x63]).length - 2)
      ∧ ((([0x00, 0x08, 0x60, 0x6D, 0x63]
            ++ crc16_modbus [0x00, 0x08, 0x60, 0x6D, 0x63]).take
          (([0x00, 0x08, 0x60, 0x6D, 0x63]
            ++ crc16_modbus [0x00, 0x08, 0x60, 0x6D, 0x63]).length - 2)).drop 5).length < 7
      ∧ pollDevice (some ([0x00, 0x08, 0x60, 0x6D, 0x63]
            ++ crc16_modbus [0x00, 0x08, 0x60, 0x6D, 0x63])) none
          = some (Outcome.partialRow 0 0 0) := by
  refine ⟨by decide, by decide, ?_⟩
  have h := pollDevice_good_primary
    ([0x00, 0x08, 0x60, 0x6D, 0x63] ++ crc16_modbus [0x00, 0x08, 0x60, 0x6D, 0x63])
    none _ _ _ (by decide) (parse_63_eq _ (by decide)) trivial
  have hpay : ((([0x00, 0x08, 0x60, 0x6D, 0x63]
      ++ crc16_modbus [0x00, 0x08, 0x60, 0x6D, 0x63]).take
        (([0x00, 0x08, 0x60, 0x6D, 0x63]
      ++ crc16_modbus [0x00, 0x08, 0x60, 0x6D, 0x63]).length - 2)).drop 5) = [] := by decide
  rw [hpay] at h
  simpa [specDecimal, bcdDigits, Nat.ofDigits] using h

/-- C10: `bcd_to_int` of the empty byte sequence is 0, and both field
decoders are total on well-formed-BCD payloads shorter than their
nominal length: the slices truncate silently, a full result tuple is
still produced, and a field all of whose bytes are missing decodes to
0 (the power field for primary payloads of at most 4 bytes, the
tariff-2 field for secondary payloads of at most 4 bytes). -/
theorem decoders_total_on_short_payloads :
    bcd_to_int [] = some 0
      ∧ (∀ p : List Nat, (∀ d ∈ bcdDigits p, d ≤ 9) → p.length < 7 →
          ∃ t, parse_63 p = some t)
      ∧ (∀ p : List Nat, (∀ d ∈ bcdDigits p, d ≤ 9) → p.length < 8 →
          ∃ t, parse_27 p = some t)
      ∧ (∀ p : List Nat, (∀ d ∈ bcdDigits p, d ≤ 9) → p.length ≤ 4 →
          parse_63 p = some ((specDecimal (p.take 2) : ℚ) / 10,
            (specDecimal ((p.drop 2).take 2) : ℚ) / 100, 0))
      ∧ (∀ p : List Nat, (∀ d ∈ bcdDigits p, d ≤ 9) → p.length ≤ 4 →
          parse_27 p = some ((specDecimal (p.take 4) : ℚ) / 100, 0)) := by
  refine ⟨by decide, ?_, ?_, ?_, ?_⟩
  · intro p hwf _
    exact ⟨_, parse_63_eq p hwf⟩
  · intro p hwf _
    exact ⟨_, parse_27_eq p hwf⟩
  · intro p hwf hlen
    rw [parse_63_eq p hwf, List.drop_eq_nil_of_le hlen]
    norm_num [specDecimal, bcdDigits, Nat.ofDigits]
  · intro p hwf hlen
    rw [parse_27_eq p hwf, List.drop_eq_nil_of_le hlen]
    norm_num [specDecimal, bcdDigits, Nat.ofDigits]

/-- Witness for C10 at the 1-byte payload `0x09`. -/
theorem decoders_total_on_short_payloads_witness :
    (∃ t, parse_63 [0x09] = some t)
      ∧ parse_27 [0x09] = some ((specDecimal ([0x09].take 4) : ℚ) / 100, 0) :=
  ⟨decoders_total_on_short_payloads.2.1 [0x09] (by decide) (by decide),
    decoders_total_on_short_payloads.2.2.2.2 [0x09] (by decide) (by decide)⟩
